import Mathlib

/-!
Shallow embedding of the unegui.mn real-estate scraping pipeline
(`src/app.py`) and verification of its specification claims.

Python strings are modelled as `List Char` (`Str`); `str.strip`,
`str.replace`, substring containment (`in`) and `datetime.strptime`
with format `"%H:%M"` are given executable models below.  External
collaborators (HTTP fetch, ISO-8601 parsing, the thread pool's
completion order) enter as function parameters; exceptions are
modelled with `Except Unit`.
-/

namespace RealEstate

/-- Python strings, modelled as lists of characters. -/
abbrev Str := List Char

/-- Model of Python `str.strip()`: remove leading and trailing whitespace. -/
def pyStrip (s : Str) : Str :=
  ((s.dropWhile Char.isWhitespace).reverse.dropWhile Char.isWhitespace).reverse

/-- Model of Python `pat in s` (substring containment): `pat` occurs as a
contiguous run somewhere in `s`. -/
def hasTok (tok : Str) : Str → Bool
  | [] => tok.isEmpty
  | c :: rest => tok.isPrefixOf (c :: rest) || hasTok tok rest

/-- Worker for `replaceAll`, structurally recursive on a fuel argument so
that it reduces definitionally; fuel `s.length` always suffices because
each step consumes at least one character of `s`. -/
def replaceAllAux (pat repl : Str) : Nat → Str → Str
  | _, [] => []
  | 0, s => s
  | fuel + 1, c :: rest =>
    if pat.isPrefixOf (c :: rest) then
      repl ++ replaceAllAux pat repl fuel (rest.drop (pat.length - 1))
    else
      c :: replaceAllAux pat repl fuel rest

/-- Model of Python `s.replace(pat, repl)`: replace every non-overlapping
occurrence of `pat`, scanning left to right.  `pat` is assumed non-empty
(all call sites pass a fixed marker token). -/
def replaceAll (pat repl s : Str) : Str := replaceAllAux pat repl s.length s

/-- Model of Python `str.rstrip(":")`: remove trailing colon characters. -/
def rstripColon (s : Str) : Str :=
  (s.reverse.dropWhile (· = ':')).reverse

/-- The Mongolian "today" marker token from `parse_mongolian_date`. -/
def todayTok : Str := "Өнөөдөр".toList

/-- The Mongolian "yesterday" marker token from `parse_mongolian_date`. -/
def yesterdayTok : Str := "Өчигдөр".toList

/-- The "Published:" label from `scrape_detail_page`. -/
def publishedTok : Str := "Нийтэлсэн:".toList

/-- Timestamps: calendar dates are abstracted to a day number (so
"yesterday" is `day - 1`), together with a time of day. -/
structure DateTime where
  day : Int
  hour : Nat
  minute : Nat
  second : Nat
  deriving DecidableEq, Repr

/-- Numeric value of a digit string (most significant first). -/
def digitsVal (s : Str) : Nat :=
  s.foldl (fun a c => 10 * a + (c.toNat - '0'.toNat)) 0

/-- A field of at most two decimal digits, as accepted by `strptime`
directives `%H` and `%M`. -/
def isTwoDigitField (s : Str) : Bool :=
  !s.isEmpty && s.length ≤ 2 && s.all Char.isDigit

/-- Model of `datetime.strptime(f"{date} {t}", "%Y-%m-%d %H:%M")` restricted
to its time part: the date part is always well-formed (it is formatted from
a `datetime`), so success depends only on `t` being `H:M` with
`0 ≤ H ≤ 23`, `0 ≤ M ≤ 59`, one or two digits each, nothing left over.
Returns `none` where `strptime` raises `ValueError`. -/
def parseHM (s : Str) : Option (Nat × Nat) :=
  match s.splitOn ':' with
  | [h, m] =>
    if isTwoDigitField h && isTwoDigitField m
        && digitsVal h ≤ 23 && digitsVal m ≤ 59 then
      some (digitsVal h, digitsVal m)
    else none
  | _ => none

/-- Embedding of `parse_mongolian_date` (src/app.py:13-27).  `iso` models
`datetime.fromisoformat` (`none` where it raises `ValueError`); `now`
models `datetime.now()`.  The result is `Except`: `.error` marks an
uncaught Python exception escaping the function. -/
def parse_mongolian_date (iso : Str → Option DateTime) (now : DateTime)
    (raw : Str) : Except Unit DateTime :=
  let text := pyStrip raw
  if hasTok todayTok text then
    match parseHM (pyStrip (replaceAll todayTok [] text)) with
    | some (h, m) => .ok ⟨now.day, h, m, 0⟩
    | none => .error ()
  else if hasTok yesterdayTok text then
    match parseHM (pyStrip (replaceAll yesterdayTok [] text)) with
    | some (h, m) => .ok ⟨now.day - 1, h, m, 0⟩
    | none => .error ()
  else
    match iso text with
    | some d => .ok d
    | none => .ok now

/-- Field values of a scraped record: Python `None`, a string, or a
`datetime` produced by `parse_mongolian_date`. -/
inductive Value where
  | none
  | str (s : Str)
  | date (d : DateTime)
  deriving DecidableEq, Repr

/-- A Python dict with string keys, as an insertion-ordered association
list (each key occurs at most once, in first-insertion order; every dict
below is built from `[]` or a literal with distinct keys via
`dictInsert`, which keeps that invariant). -/
abbrev Record := List (Str × Value)

/-- Python dict assignment `d[k] = v` on a duplicate-free association
list: overwrite in place if `k` is present, otherwise append at the end. -/
def dictInsert : Record → Str → Value → Record
  | [], k, v => [(k, v)]
  | p :: rest, k, v =>
    if p.1 = k then (k, v) :: rest else p :: dictInsert rest k v

/-- Python dict lookup `d[k]` (as `Option`). -/
def recordGet : Record → Str → Option Value
  | [], _ => Option.none
  | p :: rest, k => if p.1 = k then Option.some p.2 else recordGet rest k

/-- The result of fetching and parsing one listing's detail page
(src/app.py:44-63), abstracting the HTTP body and BeautifulSoup queries:
each field holds the trimmed text the corresponding selector would
produce, or `none` when the selector matches nothing.
`priceMeta = some none` models a `meta[itemprop="price"]` element that
lacks a `content` attribute (subscripting it raises `KeyError`).
`dateSpan` is the stripped text of the span containing "Нийтэлсэн:", when
such a span exists.  `chars` lists the `ul.chars-column > li` items in
document order, each with its optional `.key-chars` / `.value-chars`
texts. -/
structure Page where
  title : Option Str
  priceMeta : Option (Option Str)
  sku : Option Str
  addr : Option Str
  renderLoc : Option Str
  dateSpan : Option Str
  chars : List (Option Str × Option Str)
  deriving DecidableEq, Repr

/-- Lift an optional selector text to a field value. -/
def optStr : Option Str → Value
  | Option.none => .none
  | Option.some s => .str s

/-- One iteration of the characteristics loop (src/app.py:59-63): a `li`
contributes an entry only when it has both a key and a value element. -/
def charStep (acc : Record) (kv : Option Str × Option Str) : Record :=
  match kv with
  | (Option.some k, Option.some v) => dictInsert acc (rstripColon k) (.str v)
  | _ => acc

/-- The `props` dict of `scrape_detail_page` (src/app.py:58-63): one
entry per `li` having both a key and a value element, key colon-trimmed,
later duplicates overwriting earlier ones. -/
def charProps (chars : List (Option Str × Option Str)) : Record :=
  chars.foldl charStep []

/-- Python `{**d, **props}` tail: fold the entries of `props` into `d`
with dict-assignment semantics. -/
def mergeProps (props d : Record) : Record :=
  props.foldl (fun acc kv => dictInsert acc kv.1 kv.2) d

/-- The `Price` field (src/app.py:67): `price_meta["content"] if
price_meta else None`; `.error` is the `KeyError` raised when the meta
element exists but has no `content` attribute. -/
def priceVal : Option (Option Str) → Except Unit Value
  | Option.none => .ok .none
  | Option.some Option.none => .error ()
  | Option.some (Option.some s) => .ok (.str s)

/-- The `Date` field (src/app.py:52-56): strip the "Нийтэлсэн:" label off
the date span's text and normalize the remainder; `.error` propagates a
`ValueError` escaping `parse_mongolian_date`. -/
def dateField (iso : Str → Option DateTime) (now : DateTime) :
    Option Str → Except Unit Value
  | Option.none => .ok .none
  | Option.some t =>
    match parse_mongolian_date iso now (pyStrip (replaceAll publishedTok [] t)) with
    | .ok d => .ok (.date d)
    | .error e => .error e

/-- The `Location` field (src/app.py:51): the address element's text,
falling back to the secondary render-container element. -/
def locField (page : Page) : Option Str :=
  match page.addr with
  | Option.some s => Option.some s
  | Option.none => page.renderLoc

/-- The result dict `{Title, Price, Ad_ID, Location, Date, URL, **props}`
(src/app.py:65-73): the six fixed entries in literal order, then the
extra characteristic entries merged dict-style on top. -/
def buildRecord (page : Page) (price dateVal : Value) (url : Str) : Record :=
  mergeProps (charProps page.chars)
    [("Title".toList, optStr page.title), ("Price".toList, price),
     ("Ad_ID".toList, optStr page.sku), ("Location".toList, optStr (locField page)),
     ("Date".toList, dateVal), ("URL".toList, .str url)]

/-- The body of `scrape_detail_page`'s `try` block (src/app.py:43-73):
fetch the page, extract the fields, then build the result dict.  `.error`
marks a Python exception inside the block (fetch failure, missing
`content` attribute on the price meta element, or `parse_mongolian_date`
raising). -/
def scrape_detail_body (fetch : Str → Except Unit Page)
    (iso : Str → Option DateTime) (now : DateTime) (url : Str) :
    Except Unit Record :=
  match fetch url with
  | .error e => .error e
  | .ok page =>
    match priceVal page.priceMeta, dateField iso now page.dateSpan with
    | .ok price, .ok dateVal => .ok (buildRecord page price dateVal url)
    | .error e, _ => .error e
    | .ok _, .error e => .error e

/-- Embedding of `scrape_detail_page` (src/app.py:42-76): the `try` body,
with every exception caught at the function boundary, a warning pushed to
the observability sink (second component: the list of warning messages,
here the failing URL), and `None` returned on failure. -/
def scrape_detail_page (fetch : Str → Except Unit Page)
    (iso : Str → Option DateTime) (now : DateTime) (url : Str) :
    Option Record × List Str :=
  match scrape_detail_body fetch iso now url with
  | .ok r => (Option.some r, [])
  | .error _ => (Option.none, ["Failed to scrape ".toList ++ url])

/-- The per-URL extraction as submitted to the worker pool
(src/app.py:96): just the record-or-`None` result. -/
def realDetail (fetch : Str → Except Unit Page) (iso : Str → Option DateTime)
    (now : DateTime) (url : Str) : Option Record :=
  (scrape_detail_page fetch iso now url).1

/-- Site origin prepended to every relative listing href (src/app.py:88). -/
def siteOrigin : Str := "https://www.unegui.mn".toList

/-- Index-page URL `f"{base_url}?page={page}"` (src/app.py:83). -/
def pageUrl (base : Str) (n : Nat) : Str :=
  base ++ "?page=".toList ++ Nat.toDigits 10 n

/-- The link-collection loop of `scrape_category` (src/app.py:81-88):
starting at page number `p` with `n` pages left and accumulator `acc`,
fetch each index page in order and append its matching anchors' hrefs,
absolutized with the site origin.  `fetchIdx` models fetching an index
page URL and selecting `a.mask[href^='/adv/']` hrefs in document order;
`.error` models `raise_for_status` aborting the whole category. -/
def collectLoop (fetchIdx : Str → Except Unit (List Str)) (base : Str) :
    List Str → Nat → Nat → Except Unit (List Str)
  | acc, _, 0 => .ok acc
  | acc, p, n + 1 =>
    match fetchIdx (pageUrl base p) with
    | .error e => .error e
    | .ok anchors =>
      collectLoop fetchIdx base (acc ++ anchors.map (fun h => siteOrigin ++ h)) (p + 1) n

/-- Link collection over pages `1..total_pages` (src/app.py:81-88). -/
def collect_links (fetchIdx : Str → Except Unit (List Str)) (base : Str)
    (total_pages : Nat) : Except Unit (List Str) :=
  collectLoop fetchIdx base [] 1 total_pages

/-- The fan-out loop of `scrape_category` (src/app.py:95-101), after the
thread pool has been modelled away: `completed` is the sequence of URLs in
the order `as_completed` yields their futures, `total` is `total_links`,
`i` the 1-based `enumerate` counter.  Returns the accumulated `scraped`
list (a result is appended when it is truthy, i.e. a non-`None`,
non-empty dict) and the list of fractions reported to the progress bar
(`min(i / total_links, 1.0)` after every completion). -/
def fanoutLoop (detail : Str → Option Record) (total : Nat) :
    List Str → Nat → List Record × List ℚ
  | [], _ => ([], [])
  | url :: rest, i =>
    let head : List Record :=
      match detail url with
      | Option.some r => if r = [] then [] else [r]
      | Option.none => []
    let tail := fanoutLoop detail total rest (i + 1)
    (head ++ tail.1, min ((i : ℚ) / (total : ℚ)) 1 :: tail.2)

/-- Embedding of `scrape_category` (src/app.py:79-103).  `total_pages`
stands for the result of `get_last_page`; `sched` models the thread
pool's nondeterministic completion order (`as_completed`), rearranging
the submitted URLs; theorems constrain it to a permutation.  Returns the
accumulated records (the `DataFrame` rows) and the reported progress
fractions, or the index-page fetch error. -/
def scrape_category (fetchIdx : Str → Except Unit (List Str))
    (detail : Str → Option Record) (sched : List Str → List Str)
    (base : Str) (total_pages : Nat) :
    Except Unit (List Record × List ℚ) :=
  match collect_links fetchIdx base total_pages with
  | .error e => .error e
  | .ok links => .ok (fanoutLoop detail links.length (sched links) 1)

/-! Concrete instances used to instantiate the theorems below. -/

/-- A detail page on which every selector misses and the characteristics
list is empty. -/
def emptyPage : Page :=
  ⟨Option.none, Option.none, Option.none, Option.none, Option.none, Option.none, []⟩

/-- A fetch collaborator that always succeeds with `emptyPage`. -/
def fetchEmpty : Str → Except Unit Page := fun _ => .ok emptyPage

/-- A fetch collaborator that always fails (e.g. a network timeout). -/
def fetchFail : Str → Except Unit Page := fun _ => .error ()

/-- A detail page whose characteristics container holds a single pair
with key text `"URL:"` and value text `"evil"`. -/
def urlCharPage : Page :=
  ⟨Option.none, Option.none, Option.none, Option.none, Option.none, Option.none,
   [(Option.some "URL:".toList, Option.some "evil".toList)]⟩

/-- An ISO-8601 parser that rejects every input. -/
def isoNone : Str → Option DateTime := fun _ => Option.none

/-- An ISO-8601 parser recognizing exactly one date string. -/
def isoSample : Str → Option DateTime := fun s =>
  if s = "2024-05-05".toList then Option.some ⟨42, 10, 20, 30⟩ else Option.none

/-- A fixed clock value. -/
def now0 : DateTime := ⟨100, 1, 2, 3⟩

/-- An index fetch serving one page that lists the same listing anchor
twice. -/
def dupIdx : Str → Except Unit (List Str) := fun u =>
  if u = pageUrl "cat".toList 1 then .ok ["/adv/x".toList, "/adv/x".toList]
  else .error ()

/-- The absolute URL of the duplicated listing served by `dupIdx`. -/
def dupUrl : Str := siteOrigin ++ "/adv/x".toList

/-- An index fetch serving two pages with three listing anchors each. -/
def idx2x3 : Str → Except Unit (List Str) := fun u =>
  if u = pageUrl "b".toList 1 then
    .ok ["/adv/a1".toList, "/adv/a2".toList, "/adv/a3".toList]
  else if u = pageUrl "b".toList 2 then
    .ok ["/adv/b1".toList, "/adv/b2".toList, "/adv/b3".toList]
  else .error ()

/-- The per-page anchor lists served by `idx2x3`. -/
def anchors2x3 : Nat → List Str := fun n =>
  if n = 1 then ["/adv/a1".toList, "/adv/a2".toList, "/adv/a3".toList]
  else if n = 2 then ["/adv/b1".toList, "/adv/b2".toList, "/adv/b3".toList]
  else []

/-! Helper lemmas. -/

theorem dictInsert_ne_nil (d : Record) (k : Str) (v : Value) :
    dictInsert d k v ≠ [] := by
  cases d with
  | nil => simp [dictInsert]
  | cons p rest =>
    simp only [dictInsert]
    split <;> simp

theorem recordGet_dictInsert_ne (d : Record) (k k' : Str) (v : Value)
    (h : ¬ k' = k) : recordGet (dictInsert d k v) k' = recordGet d k' := by
  induction d with
  | nil =>
    simp only [dictInsert, recordGet]
    rw [if_neg (fun hk => h hk.symm)]
  | cons p rest ih =>
    by_cases hp : p.1 = k
    · simp only [dictInsert, if_pos hp, recordGet]
      rw [if_neg (fun hk => h hk.symm), if_neg (fun hk => h (hp ▸ hk).symm)]
    · simp only [dictInsert, if_neg hp, recordGet]
      by_cases hq : p.1 = k'
      · rw [if_pos hq, if_pos hq]
      · rw [if_neg hq, if_neg hq, ih]

theorem mergeProps_recordGet_ne (props d : Record) (k : Str)
    (h : ∀ p ∈ props, ¬ p.1 = k) :
    recordGet (mergeProps props d) k = recordGet d k := by
  induction props generalizing d with
  | nil => rfl
  | cons p rest ih =>
    simp only [mergeProps, List.foldl_cons] at *
    rw [ih _ (fun q hq => h q (List.mem_cons_of_mem _ hq)),
      recordGet_dictInsert_ne _ _ _ _
        (fun hk => h p (List.mem_cons_self _ _) hk.symm)]

theorem mergeProps_ne_nil (props d : Record) (hd : d ≠ []) :
    mergeProps props d ≠ [] := by
  induction props generalizing d with
  | nil => exact hd
  | cons p rest ih => exact ih _ (dictInsert_ne_nil _ _ _)

theorem mem_dictInsert (p : Str × Value) (d : Record) (k : Str) (v : Value)
    (h : p ∈ dictInsert d k v) : p.1 = k ∨ p ∈ d := by
  induction d with
  | nil =>
    simp only [dictInsert, List.mem_singleton] at h
    exact Or.inl (by rw [h])
  | cons q rest ih =>
    simp only [dictInsert] at h
    split at h
    · rcases List.mem_cons.1 h with h1 | h2
      · exact Or.inl (by rw [h1])
      · exact Or.inr (List.mem_cons_of_mem _ h2)
    · rcases List.mem_cons.1 h with h1 | h2
      · exact Or.inr (h1 ▸ List.mem_cons_self _ _)
      · rcases ih h2 with hk | hm
        · exact Or.inl hk
        · exact Or.inr (List.mem_cons_of_mem _ hm)

theorem mem_charStep_fold (chars : List (Option Str × Option Str))
    (acc : Record) (p : Str × Value) (h : p ∈ chars.foldl charStep acc) :
    p ∈ acc ∨ ∃ k v, (Option.some k, Option.some v) ∈ chars ∧ p.1 = rstripColon k := by
  induction chars generalizing acc with
  | nil => exact Or.inl h
  | cons c rest ih =>
    simp only [List.foldl_cons] at h
    rcases ih _ h with hacc | ⟨k, v, hm, hk⟩
    · match c with
      | (Option.some k, Option.some v) =>
        rcases mem_dictInsert _ _ _ _ hacc with hk | hmem
        · exact Or.inr ⟨k, v, List.mem_cons_self _ _, hk⟩
        · exact Or.inl hmem
      | (Option.some _, Option.none) => exact Or.inl hacc
      | (Option.none, _) => exact Or.inl hacc
    · exact Or.inr ⟨k, v, List.mem_cons_of_mem _ hm, hk⟩

theorem charProps_key (chars : List (Option Str × Option Str))
    (p : Str × Value) (h : p ∈ charProps chars) :
    ∃ k v, (Option.some k, Option.some v) ∈ chars ∧ p.1 = rstripColon k := by
  rcases mem_charStep_fold chars [] p h with hin | hex
  · cases hin
  · exact hex

theorem buildRecord_ne_nil (page : Page) (price dateVal : Value) (url : Str) :
    buildRecord page price dateVal url ≠ [] :=
  mergeProps_ne_nil _ _ (by simp [Record])

theorem realDetail_ne_nil (fetch : Str → Except Unit Page)
    (iso : Str → Option DateTime) (now : DateTime) (url : Str) (r : Record)
    (h : realDetail fetch iso now url = Option.some r) : r ≠ [] := by
  unfold realDetail scrape_detail_page scrape_detail_body at h
  cases hf : fetch url with
  | error e => simp [hf] at h
  | ok page =>
    simp only [hf] at h
    cases hp : priceVal page.priceMeta with
    | error e => simp [hp] at h
    | ok price =>
      cases hd : dateField iso now page.dateSpan with
      | error e => simp [hp, hd] at h
      | ok dateVal =>
        simp only [hp, hd, Option.some.injEq] at h
        rw [← h]
        exact buildRecord_ne_nil _ _ _ _

theorem fanoutLoop_fst (detail : Str → Option Record) (total : Nat)
    (completed : List Str)
    (h : ∀ url r, detail url = Option.some r → r ≠ []) :
    ∀ i, (fanoutLoop detail total completed i).1 = completed.filterMap detail := by
  induction completed with
  | nil => intro i; rfl
  | cons url rest ih =>
    intro i
    simp only [fanoutLoop, List.filterMap_cons]
    cases hd : detail url with
    | none => simpa [hd] using ih (i + 1)
    | some r => simp [hd, h url r hd, ih (i + 1)]

theorem fanoutLoop_snd (detail : Str → Option Record) (total : Nat)
    (completed : List Str) :
    ∀ i, (fanoutLoop detail total completed i).2
      = (List.range' i completed.length).map
          (fun j : Nat => min ((j : ℚ) / (total : ℚ)) 1) := by
  induction completed with
  | nil => intro i; rfl
  | cons url rest ih =>
    intro i
    simp only [fanoutLoop, List.length_cons, List.range'_succ, List.map_cons,
      List.cons.injEq, true_and]
    exact ih (i + 1)

theorem collectLoop_ok (fetchIdx : Str → Except Unit (List Str)) (base : Str)
    (A : Nat → List Str) :
    ∀ (c p : Nat) (acc : List Str),
      (∀ n, p ≤ n → n < p + c → fetchIdx (pageUrl base n) = .ok (A n)) →
      collectLoop fetchIdx base acc p c
        = .ok (acc ++ (List.range' p c).flatMap
            (fun n => (A n).map (fun h => siteOrigin ++ h))) := by
  intro c
  induction c with
  | zero => intro p acc _; simp [collectLoop]
  | succ m ih =>
    intro p acc h
    have hp : fetchIdx (pageUrl base p) = .ok (A p) := h p le_rfl (by omega)
    simp only [collectLoop, hp]
    rw [ih (p + 1) _ (fun n h1 h2 => h n (by omega) (by omega))]
    simp [List.range'_succ, List.append_assoc]

theorem flatMap_length_const (A : Nat → List Str) (k : Nat) :
    ∀ (c p : Nat), (∀ n, p ≤ n → n < p + c → (A n).length = k) →
      ((List.range' p c).flatMap
        (fun n => (A n).map (fun h => siteOrigin ++ h))).length = c * k := by
  intro c
  induction c with
  | zero => intro p _; simp
  | succ m ih =>
    intro p h
    rw [List.range'_succ]
    simp only [List.flatMap_cons, List.length_append, List.length_map]
    rw [h p le_rfl (by omega), ih (p + 1) (fun n h1 h2 => h n (by omega) (by omega))]
    ring

/-! Claim theorems. -/

/-- Claim C1 as stated is false at a concrete input: when the today
marker is present but the remainder is not a valid hour:minute time,
`parse_mongolian_date` propagates an error (the `strptime` `ValueError`
is raised outside the `try` block) instead of returning the current
timestamp. -/
theorem C1_counterexample :
    parse_mongolian_date isoNone now0 "Өнөөдөр not-a-time".toList
      = .error () := rfl

/-- Claim C1, amended: the fall-back to the current timestamp covers only
inputs containing neither marker token whose text ISO parsing rejects; when
a marker token is present and the remainder is not a valid hour:minute
time, the function raises instead of falling back. -/
theorem C1_theorem (iso : Str → Option DateTime) (now : DateTime) (raw : Str) :
    (hasTok todayTok (pyStrip raw) = false →
      hasTok yesterdayTok (pyStrip raw) = false →
      iso (pyStrip raw) = Option.none →
      parse_mongolian_date iso now raw = .ok now)
    ∧ (hasTok todayTok (pyStrip raw) = true →
      parseHM (pyStrip (replaceAll todayTok [] (pyStrip raw))) = Option.none →
      parse_mongolian_date iso now raw = .error ())
    ∧ (hasTok todayTok (pyStrip raw) = false →
      hasTok yesterdayTok (pyStrip raw) = true →
      parseHM (pyStrip (replaceAll yesterdayTok [] (pyStrip raw))) = Option.none →
      parse_mongolian_date iso now raw = .error ()) := by
  refine ⟨fun ht hy hiso => ?_, fun ht hbad => ?_, fun ht hy hbad => ?_⟩
  · simp [parse_mongolian_date, ht, hy, hiso]
  · simp [parse_mongolian_date, ht, hbad]
  · simp [parse_mongolian_date, ht, hy, hbad]

/-- Witness for C1's amended theorem at concrete inputs. -/
theorem C1_witness :
    parse_mongolian_date isoNone now0 "hello".toList = .ok now0
    ∧ parse_mongolian_date isoNone now0 "Өнөөдөр xx".toList = .error ()
    ∧ parse_mongolian_date isoNone now0 "Өчигдөр xx".toList = .error () :=
  ⟨(C1_theorem isoNone now0 "hello".toList).1 rfl rfl rfl,
   (C1_theorem isoNone now0 "Өнөөдөр xx".toList).2.1 rfl rfl,
   (C1_theorem isoNone now0 "Өчигдөр xx".toList).2.2 rfl rfl rfl⟩

/-- Claim C5: on input containing neither marker token (already stripped,
as every valid ISO-8601 string is) that the ISO-8601 parser accepts,
`parse_mongolian_date` returns exactly the ISO parsing result. -/
theorem C5_theorem (iso : Str → Option DateTime) (now : DateTime) (raw : Str)
    (d : DateTime)
    (hstrip : pyStrip raw = raw)
    (ht : hasTok todayTok raw = false)
    (hy : hasTok yesterdayTok raw = false)
    (hiso : iso raw = Option.some d) :
    parse_mongolian_date iso now raw = .ok d := by
  simp [parse_mongolian_date, hstrip, ht, hy, hiso]

/-- Witness for C5 at a concrete ISO date string. -/
theorem C5_witness :
    parse_mongolian_date isoSample now0 "2024-05-05".toList
      = .ok ⟨42, 10, 20, 30⟩ :=
  C5_theorem isoSample now0 "2024-05-05".toList ⟨42, 10, 20, 30⟩ rfl rfl rfl rfl

/-- Claim C6: with the today marker present and a valid hour:minute
remainder, the result combines today's date (`now.day`) with that time;
with the yesterday marker (the today branch not taken, which the code
checks first) and a valid remainder, the result combines `now.day - 1`
with that time.  Seconds are zero in both cases (`strptime` with format
`"%Y-%m-%d %H:%M"`). -/
theorem C6_theorem (iso : Str → Option DateTime) (now : DateTime) (raw : Str)
    (h m : Nat) :
    (hasTok todayTok (pyStrip raw) = true →
      parseHM (pyStrip (replaceAll todayTok [] (pyStrip raw))) = Option.some (h, m) →
      parse_mongolian_date iso now raw = .ok ⟨now.day, h, m, 0⟩)
    ∧ (hasTok todayTok (pyStrip raw) = false →
      hasTok yesterdayTok (pyStrip raw) = true →
      parseHM (pyStrip (replaceAll yesterdayTok [] (pyStrip raw))) = Option.some (h, m) →
      parse_mongolian_date iso now raw = .ok ⟨now.day - 1, h, m, 0⟩) := by
  constructor
  · intro ht hhm
    simp [parse_mongolian_date, ht, hhm]
  · intro ht hy hhm
    simp [parse_mongolian_date, ht, hy, hhm]

/-- Witness for C6 at the spec's concrete examples ("today 14:30" and
"yesterday 09:00", `now.day = 100`). -/
theorem C6_witness :
    parse_mongolian_date isoNone now0 "Өнөөдөр 14:30".toList
      = .ok ⟨100, 14, 30, 0⟩
    ∧ parse_mongolian_date isoNone now0 "Өчигдөр 09:00".toList
      = .ok ⟨99, 9, 0, 0⟩ :=
  ⟨(C6_theorem isoNone now0 "Өнөөдөр 14:30".toList 14 30).1 rfl rfl,
   (C6_theorem isoNone now0 "Өчигдөр 09:00".toList 9 0).2 rfl rfl rfl⟩

/-- Claim C2 as stated is false at a concrete input: on a page whose
characteristics list contains the key `"URL:"` (colon-trimmed to `"URL"`),
the extraction succeeds but `**props` overwrites the `"URL"` entry of the
result dict, so the record's URL field is the page-supplied value, not
the fetched URL. -/
theorem C2_counterexample :
    ((scrape_detail_page (fun _ => .ok urlCharPage) isoNone now0 "u".toList).1.map
        (fun r => recordGet r "URL".toList))
      = Option.some (Option.some (.str "evil".toList))
    ∧ ¬ ("evil".toList = "u".toList) := ⟨rfl, by decide⟩

/-- Claim C2, amended: whenever `scrape_detail_page` returns a record and
no characteristic key of the fetched page colon-trims to `"URL"`, the
record's URL field equals the fetched listing URL (the `**props` merge is
what can break the invariant, and only through that exact key). -/
theorem C2_theorem (fetch : Str → Except Unit Page) (iso : Str → Option DateTime)
    (now : DateTime) (url : Str) (page : Page) (r : Record)
    (hf : fetch url = .ok page)
    (hk : ∀ k v, (Option.some k, Option.some v) ∈ page.chars →
      ¬ rstripColon k = "URL".toList)
    (hr : (scrape_detail_page fetch iso now url).1 = Option.some r) :
    recordGet r "URL".toList = Option.some (.str url) := by
  unfold scrape_detail_page scrape_detail_body at hr
  simp only [hf] at hr
  cases hp : priceVal page.priceMeta with
  | error e => simp [hp] at hr
  | ok price =>
    cases hd : dateField iso now page.dateSpan with
    | error e => simp [hp, hd] at hr
    | ok dateVal =>
      simp only [hp, hd, Option.some.injEq] at hr
      rw [← hr]
      unfold buildRecord
      rw [mergeProps_recordGet_ne]
      · rfl
      · intro p hp2 hk2
        rcases charProps_key _ _ hp2 with ⟨k, v, hm, hkey⟩
        exact hk k v hm (by rw [← hkey, hk2])

/-- Witness for C2's amended theorem: a successful extraction from a page
with no characteristics yields a record whose URL field is the fetched
URL. -/
theorem C2_witness :
    recordGet [("Title".toList, Value.none), ("Price".toList, Value.none),
        ("Ad_ID".toList, Value.none), ("Location".toList, Value.none),
        ("Date".toList, Value.none), ("URL".toList, Value.str "u".toList)]
      "URL".toList = Option.some (.str "u".toList) :=
  C2_theorem fetchEmpty isoNone now0 "u".toList emptyPage _ rfl
    (by intro k v h; simp [emptyPage] at h) rfl

/-- Claim C8: `scrape_detail_page` is total (every exception of the body
is caught at the operation boundary): it returns a record exactly when the
`try` body succeeds, and it returns no-record exactly when a warning about
the failing URL is pushed to the observability sink. -/
theorem C8_theorem (fetch : Str → Except Unit Page) (iso : Str → Option DateTime)
    (now : DateTime) (url : Str) :
    (∀ r, (scrape_detail_page fetch iso now url).1 = Option.some r
      ↔ scrape_detail_body fetch iso now url = .ok r)
    ∧ ((scrape_detail_page fetch iso now url).1 = Option.none
      ↔ (scrape_detail_page fetch iso now url).2
          = ["Failed to scrape ".toList ++ url]) := by
  cases hb : scrape_detail_body fetch iso now url with
  | ok r' => refine ⟨fun r => ?_, ?_⟩ <;> simp [scrape_detail_page, hb]
  | error e => refine ⟨fun r => ?_, ?_⟩ <;> simp [scrape_detail_page, hb]

/-- Witness for C8: a failing fetch produces no record and exactly the
warning message for the attempted URL. -/
theorem C8_witness :
    (scrape_detail_page fetchFail isoNone now0 "u".toList).2
      = ["Failed to scrape ".toList ++ "u".toList] :=
  (C8_theorem fetchFail isoNone now0 "u".toList).2.mp rfl

/-- Claim C3: for any discovered link list and any completion order (a
permutation of the submitted URLs), `scrape_category` returns exactly the
records of the successful per-item extractions, in completion order —
failures are dropped, no success is lost, and as a multiset the result is
the successful extractions of the discovered links. -/
theorem C3_theorem (fetchIdx : Str → Except Unit (List Str))
    (fetch : Str → Except Unit Page) (iso : Str → Option DateTime)
    (now : DateTime) (sched : List Str → List Str) (base : Str) (P : Nat)
    (links : List Str) (rows : List Record) (ps : List ℚ)
    (hl : collect_links fetchIdx base P = .ok links)
    (hperm : (sched links).Perm links)
    (hrun : scrape_category fetchIdx (realDetail fetch iso now) sched base P
      = .ok (rows, ps)) :
    rows = (sched links).filterMap (realDetail fetch iso now)
    ∧ rows.Perm (links.filterMap (realDetail fetch iso now)) := by
  unfold scrape_category at hrun
  simp only [hl, Except.ok.injEq] at hrun
  have hrows : rows
      = (fanoutLoop (realDetail fetch iso now) links.length (sched links) 1).1 := by
    rw [hrun]
  rw [fanoutLoop_fst _ _ _
    (fun url r hr => realDetail_ne_nil fetch iso now url r hr) 1] at hrows
  refine ⟨hrows, ?_⟩
  rw [hrows]
  exact hperm.filterMap _

/-- Witness for C3: a two-link category where both extractions succeed. -/
theorem C3_witness :
    [buildRecord emptyPage Value.none Value.none dupUrl,
      buildRecord emptyPage Value.none Value.none dupUrl]
      = [dupUrl, dupUrl].filterMap (realDetail fetchEmpty isoNone now0)
    ∧ List.Perm
        [buildRecord emptyPage Value.none Value.none dupUrl,
          buildRecord emptyPage Value.none Value.none dupUrl]
        ([dupUrl, dupUrl].filterMap (realDetail fetchEmpty isoNone now0)) :=
  C3_theorem dupIdx fetchEmpty isoNone now0 id "cat".toList 1 [dupUrl, dupUrl]
    _ _ rfl (List.Perm.refl _) rfl

/-- Claim C4: on a non-empty link list of length `T`, one progress value
is reported per completion (also for failed items), the `i`-th reported
value is `min(i / T, 1)` (1-based), the sequence is monotonically
non-decreasing, never exceeds 1, and ends exactly at 1. -/
theorem C4_theorem (fetchIdx : Str → Except Unit (List Str))
    (detail : Str → Option Record) (sched : List Str → List Str)
    (base : Str) (P : Nat) (links : List Str) (rows : List Record) (ps : List ℚ)
    (hl : collect_links fetchIdx base P = .ok links)
    (hperm : (sched links).Perm links)
    (hT : 1 ≤ links.length)
    (hrun : scrape_category fetchIdx detail sched base P = .ok (rows, ps)) :
    ps.length = links.length
    ∧ (∀ i : Nat, i < links.length →
        ps[i]? = Option.some (min (((i : ℚ) + 1) / (links.length : ℚ)) 1))
    ∧ (∀ i j : Nat, i ≤ j → j < links.length → ps.getD i 0 ≤ ps.getD j 0)
    ∧ (∀ x ∈ ps, x ≤ 1)
    ∧ ps.getLast? = Option.some 1 := by
  unfold scrape_category at hrun
  simp only [hl, Except.ok.injEq] at hrun
  have hps : ps = (fanoutLoop detail links.length (sched links) 1).2 := by
    rw [hrun]
  rw [fanoutLoop_snd, hperm.length_eq] at hps
  have hTQ : (0 : ℚ) < (links.length : ℚ) := by exact_mod_cast hT
  refine ⟨?_, ?_, ?_, ?_, ?_⟩
  · rw [hps]; simp
  · intro i hi
    rw [hps, List.getElem?_map, List.getElem?_range' _ _ hi]
    simp only [Option.map_some']
    congr 1
    push_cast
    ring_nf
  · intro i j hij hj
    have hi : i < links.length := lt_of_le_of_lt hij hj
    rw [hps, List.getD_eq_getElem?_getD, List.getD_eq_getElem?_getD,
      List.getElem?_map, List.getElem?_map,
      List.getElem?_range' _ _ hi, List.getElem?_range' _ _ hj]
    simp only [Option.map_some', Option.getD_some]
    refine min_le_min ((div_le_div_iff_of_pos_right hTQ).2 ?_) le_rfl
    exact_mod_cast by omega
  · intro x hx
    rw [hps] at hx
    rcases List.mem_map.1 hx with ⟨j, _, rfl⟩
    exact min_le_right _ _
  · have hT1 : links.length - 1 < links.length := by omega
    rw [hps, List.getLast?_eq_getElem?]
    simp only [List.length_map, List.length_range']
    rw [List.getElem?_map, List.getElem?_range' _ _ hT1]
    simp only [Option.map_some']
    have heq : 1 + 1 * (links.length - 1) = links.length := by omega
    rw [heq, div_self (ne_of_gt hTQ), min_self]

/-- Witness for C4: a one-page category with two links, all extractions
failing; the progress sequence is `[min (1/2) 1, min (2/2) 1]`. -/
theorem C4_witness :
    [min (((1 : Nat) : ℚ) / ((2 : Nat) : ℚ)) 1,
      min (((2 : Nat) : ℚ) / ((2 : Nat) : ℚ)) 1].length
      = ([dupUrl, dupUrl] : List Str).length
    ∧ (∀ i : Nat, i < ([dupUrl, dupUrl] : List Str).length →
        [min (((1 : Nat) : ℚ) / ((2 : Nat) : ℚ)) 1,
          min (((2 : Nat) : ℚ) / ((2 : Nat) : ℚ)) 1][i]?
          = Option.some (min (((i : ℚ) + 1) / (([dupUrl, dupUrl] : List Str).length : ℚ)) 1))
    ∧ (∀ i j : Nat, i ≤ j → j < ([dupUrl, dupUrl] : List Str).length →
        [min (((1 : Nat) : ℚ) / ((2 : Nat) : ℚ)) 1,
          min (((2 : Nat) : ℚ) / ((2 : Nat) : ℚ)) 1].getD i 0
          ≤ [min (((1 : Nat) : ℚ) / ((2 : Nat) : ℚ)) 1,
              min (((2 : Nat) : ℚ) / ((2 : Nat) : ℚ)) 1].getD j 0)
    ∧ (∀ x ∈ [min (((1 : Nat) : ℚ) / ((2 : Nat) : ℚ)) 1,
        min (((2 : Nat) : ℚ) / ((2 : Nat) : ℚ)) 1], x ≤ 1)
    ∧ [min (((1 : Nat) : ℚ) / ((2 : Nat) : ℚ)) 1,
        min (((2 : Nat) : ℚ) / ((2 : Nat) : ℚ)) 1].getLast? = Option.some 1 :=
  C4_theorem dupIdx (fun _ => Option.none) id "cat".toList 1 [dupUrl, dupUrl]
    [] _ rfl (List.Perm.refl _) (by decide) rfl

/-- Claim C7: with every index page `base?page=N` (`N = 1..P`) fetching
successfully with anchor list `A N`, link collection returns the
page-then-in-page-order flattened list of origin-prefixed listing URLs;
with `k` anchors per page the result has exactly `P * k` URLs. -/
theorem C7_theorem (fetchIdx : Str → Except Unit (List Str)) (base : Str)
    (P k : Nat) (A : Nat → List Str)
    (hf : ∀ n, 1 ≤ n → n ≤ P → fetchIdx (pageUrl base n) = .ok (A n))
    (hk : ∀ n, 1 ≤ n → n ≤ P → (A n).length = k) :
    collect_links fetchIdx base P
      = .ok ((List.range' 1 P).flatMap
          (fun n => (A n).map (fun h => siteOrigin ++ h)))
    ∧ ∀ links, collect_links fetchIdx base P = .ok links →
        links.length = P * k := by
  have h1 : collect_links fetchIdx base P
      = .ok ((List.range' 1 P).flatMap
          (fun n => (A n).map (fun h => siteOrigin ++ h))) := by
    unfold collect_links
    rw [collectLoop_ok fetchIdx base A P 1 [] (fun n hn1 hn2 => hf n hn1 (by omega))]
    simp
  refine ⟨h1, fun links hl => ?_⟩
  rw [h1] at hl
  simp only [Except.ok.injEq] at hl
  rw [← hl]
  rw [flatMap_length_const A k P 1 (fun n hn1 hn2 => hk n hn1 (by omega))]

/-- Witness for C7: the spec's example — two index pages with three
anchors each yield exactly six absolute URLs in page-then-in-page order. -/
theorem C7_witness :
    collect_links idx2x3 "b".toList 2
      = .ok ((List.range' 1 2).flatMap
          (fun n => (anchors2x3 n).map (fun h => siteOrigin ++ h)))
    ∧ ∀ links, collect_links idx2x3 "b".toList 2 = .ok links →
        links.length = 2 * 3 :=
  C7_theorem idx2x3 "b".toList 2 3 anchors2x3
    (fun n h1 h2 =>
      match n, h1, h2 with
      | 1, _, _ => rfl
      | 2, _, _ => rfl
      | 0, h1, _ => absurd h1 (by decide)
      | n + 3, _, h2 => absurd h2 (by omega))
    (fun n h1 h2 =>
      match n, h1, h2 with
      | 1, _, _ => rfl
      | 2, _, _ => rfl
      | 0, h1, _ => absurd h1 (by decide)
      | n + 3, _, h2 => absurd h2 (by omega))

/-- Claim C10: link collection performs no deduplication — a listing
anchor repeated on an index page is submitted once per occurrence (two
completions, hence two progress reports) and the resulting batch contains
two records carrying the same URL. -/
theorem C10_theorem :
    collect_links dupIdx "cat".toList 1 = .ok [dupUrl, dupUrl]
    ∧ (scrape_category dupIdx (realDetail fetchEmpty isoNone now0) id
          "cat".toList 1).map
        (fun out => (out.1.length,
          out.1.map (fun r => recordGet r "URL".toList), out.2.length))
      = .ok (2, [Option.some (.str dupUrl), Option.some (.str dupUrl)], 2) :=
  ⟨rfl, rfl⟩

end RealEstate
